import Mathlib

/-!
Verification of the flathead object/property core (`src/props.c`,
`src/runtime/lib/Object.c`).

The C code works over a graph of `JSValue` nodes linked by pointers.  We
embed it with an explicit heap: addresses are naturals and a `Heap` maps
every address to a `JSValue`.  A property table (`obj->object.map`, a
uthash map) is an association list of property records; uthash guarantees
key uniqueness, which we carry as a well-formedness hypothesis where a
proof needs it.  The unbounded chain walks of the C code (prototype chain,
scope chain) are written with explicit fuel.
-/

set_option autoImplicit false

namespace Flathead

/-- The type tags of a `JSValue` (`T_UNDEF`, `T_NULL`, ...). -/
inductive JSType where
  | undef
  | null
  | boolean
  | number
  | string
  | object
  | function
  | array
  deriving DecidableEq, Repr

/-- A property record (`JSProp`): name, pointer to the value (an address),
three flags and the derived circular marker. -/
structure JSProp where
  name : String
  ptr : Nat
  writable : Bool
  enumerable : Bool
  configurable : Bool
  circular : Bool
  deriving DecidableEq, Repr

/-- Modelled from the spec: the `JSValue` struct lives in a header that is
not part of the visible sources, so its fields are taken from spec section 3
(and from how the two `.c` files use them).  We flatten the C union: every
value carries all fields, each meaningful only for the matching kind.
`map` is the property table (`object.map`), `parent` the lexical scope link
(`object.parent`), `proto` the prototype link, `boundInstance` is
`function.instance`, and `extensible`/`sealed`/`frozen` are the object
state flags. -/
structure JSValue where
  type : JSType := .undef
  booleanVal : Bool := false
  stringPtr : String := ""
  map : List JSProp := []
  parent : Option Nat := none
  proto : Option Nat := none
  extensible : Bool := false
  sealed : Bool := false
  frozen : Bool := false
  boundInstance : Option Nat := none
  deriving DecidableEq, Repr

/-- The heap: every address holds a `JSValue`. -/
def Heap : Type := Nat → JSValue

/-- Pointwise heap update (a store through a `JSValue*`). -/
def hupd (h : Heap) (a : Nat) (v : JSValue) : Heap :=
  fun b => if b = a then v else h b

/-- Modelled from the spec: `JSUNDEF()` builds a fresh Undefined-kind value. -/
def JSUNDEF : JSValue := { type := .undef }

/-- Modelled from the spec: `JSOBJ()` builds a fresh Object-kind value with
an empty property table. -/
def JSOBJ : JSValue := { type := .object }

/-- Modelled from the spec: `JSBOOL(b)` builds a fresh Boolean-kind value. -/
def JSBOOL (b : Bool) : JSValue := { type := .boolean, booleanVal := b }

/-- Modelled from the spec: property flags.  In C `JSPropFlags` is a bit
mask tested with `P_WRITE`, `P_CONF`, `P_ENUM`; we keep the three bits. -/
structure JSPropFlags where
  write : Bool
  conf : Bool
  enum : Bool
  deriving DecidableEq, Repr

/-- Modelled from the spec: `P_DEFAULT` has Writable, Enumerable and
Configurable all set (spec section 3, default flags). -/
def P_DEFAULT : JSPropFlags := ⟨true, true, true⟩

/-- The error kinds this core can surface.  `typeError` is `E_TYPE` raised
through `fh_error`; `nullDeref` models a NULL-pointer dereference (a crash,
not a reported error) where the C code performs one. -/
inductive ErrKind where
  | typeError
  | nullDeref
  deriving DecidableEq, Repr

/-- An error: kind tag plus formatted message, as handed to `fh_error`. -/
structure JSError where
  kind : ErrKind
  msg : String
  deriving DecidableEq, Repr

/-- The ASCII single-quote character used in the formatted error message. -/
def quoteChar : Char := Char.ofNat 39

/-- The message `fh_error` formats for a read from undefined:
`Cannot read property <q><name><q> of undefined` with `<q>` a single quote. -/
def cannotReadMsg (name : String) : String :=
  "Cannot read property " ++ quoteChar.toString ++ name ++ quoteChar.toString
    ++ " of undefined"

/-! ## props.c -/

/-- `fh_get_prop`: own-table lookup (`HASH_FIND_STR` on `obj->object.map`).
A NULL map is the empty list. -/
def fh_get_prop (h : Heap) (obj : Nat) (name : String) : Option JSProp :=
  (h obj).map.find? (fun p => p.name == name)

/-- `fh_get`: top-level read.  On an Undefined-kind receiver it calls
`fh_error(NULL, E_TYPE, "Cannot read property '%s' of undefined", name)`,
which unwinds (never returns); otherwise it returns `prop->ptr` when the
own lookup hits, and a fresh `JSUNDEF()` (modelled as `none`) on a miss. -/
def fh_get (h : Heap) (obj : Nat) (name : String) :
    Except JSError (Option Nat) :=
  if (h obj).type = .undef then
    .error ⟨.typeError, cannotReadMsg name⟩
  else
    match fh_get_prop h obj name with
    | some p => .ok (some p.ptr)
    | none => .ok none

/-- Dereference a `fh_get`-style result: an address reads the heap, the
fresh-`JSUNDEF()` case is an Undefined-kind value. -/
def derefGet (h : Heap) (r : Option Nat) : JSValue :=
  match r with
  | some a => h a
  | none => JSUNDEF

/-- `fh_get_prop_rec`: own lookup, on a miss recurse into `object.parent`.
The C recursion is unbounded; `fuel` bounds the number of parent steps. -/
def fh_get_prop_rec (h : Heap) (obj : Nat) (name : String) :
    Nat → Option JSProp
  | 0 => fh_get_prop h obj name
  | fuel + 1 =>
    match fh_get_prop h obj name with
    | some p => some p
    | none =>
      match (h obj).parent with
      | some par => fh_get_prop_rec h par name fuel
      | none => none

/-- `fh_get_prop_proto`: own lookup, on a miss recurse into `proto`.
The C recursion is unbounded; `fuel` bounds the number of proto steps. -/
def fh_get_prop_proto (h : Heap) (obj : Nat) (name : String) :
    Nat → Option JSProp
  | 0 => fh_get_prop h obj name
  | fuel + 1 =>
    match fh_get_prop h obj name with
    | some p => some p
    | none =>
      match (h obj).proto with
      | some pr => fh_get_prop_proto h pr name fuel
      | none => none

/-- `fh_get_proto`: resolve through the prototype chain; when the resolved
value is Function-kind, store the original receiver into
`val->function.instance` before returning.  Returns the new heap and the
returned pointer (`none` is a fresh `JSUNDEF()`, which is never
Function-kind, so the stamp cannot fire on it). -/
def fh_get_proto (h : Heap) (obj : Nat) (name : String) (fuel : Nat) :
    Heap × Option Nat :=
  match fh_get_prop_proto h obj name fuel with
  | some p =>
    if (h p.ptr).type = .function then
      (hupd h p.ptr { h p.ptr with boundInstance := some obj }, some p.ptr)
    else
      (h, some p.ptr)
  | none => (h, none)

/-- The record `fh_set_prop` writes: flags from the mask, `ptr` the stored
address, `circular` set when the stored value is the owner itself
(`prop->ptr == obj`). -/
def mkProp (obj : Nat) (name : String) (val : Nat) (flags : JSPropFlags) :
    JSProp :=
  { name := name, ptr := val,
    writable := flags.write, configurable := flags.conf,
    enumerable := flags.enum, circular := val == obj }

/-- `fh_set_prop`: create-or-update of an own property.  When the name is
already present the existing record is overwritten in place (`add` stays
false and no `HASH_ADD` happens); otherwise the new record is added
(`HASH_ADD_KEYPTR`, modelled as an append). -/
def fh_set_prop (h : Heap) (obj : Nat) (name : String) (val : Nat)
    (flags : JSPropFlags) : Heap :=
  match fh_get_prop h obj name with
  | some _ =>
    hupd h obj { h obj with
      map := (h obj).map.map
        (fun q => if q.name == name then mkProp obj name val flags else q) }
  | none =>
    hupd h obj { h obj with map := (h obj).map ++ [mkProp obj name val flags] }

/-- `fh_set`: `fh_set_prop` with the default flags. -/
def fh_set (h : Heap) (obj : Nat) (name : String) (val : Nat) : Heap :=
  fh_set_prop h obj name val P_DEFAULT

/-- The while loop of `fh_set_rec`: walk the strict parents of the start
scope and return the first one whose own table contains the name (`none`
when the chain ends, or the fuel runs out, without a hit). -/
def scopeOwner (h : Heap) (name : String) : Option Nat → Nat → Option Nat
  | none, _ => none
  | some _, 0 => none
  | some s, fuel + 1 =>
    if (fh_get_prop h s name).isSome then some s
    else scopeOwner h name (h s).parent fuel

/-- `fh_set_rec`: assignment through the scope chain.  If the start scope
owns the name the loop never moves (`parent` stays NULL) and the write hits
the start scope; otherwise the first strict ancestor owning the name is the
target; if none does, the write falls back to the start scope.  Finally
`fh_set` (default flags) performs the write. -/
def fh_set_rec (h : Heap) (obj : Nat) (name : String) (val : Nat)
    (fuel : Nat) : Heap :=
  let scope_to_set :=
    if (fh_get_prop h obj name).isSome then obj
    else
      match scopeOwner h name (h obj).parent fuel with
      | some s => s
      | none => obj
  fh_set h scope_to_set name val

/-- `fh_del_prop`: own-table delete.  When the lookup hits, `HASH_DEL`
removes that record (the first list entry with the name); when it misses,
nothing happens.  No flag is consulted and no error path exists. -/
def fh_del_prop (h : Heap) (obj : Nat) (name : String) : Heap :=
  match fh_get_prop h obj name with
  | some _ =>
    hupd h obj { h obj with
      map := (h obj).map.eraseP (fun p => p.name == name) }
  | none => h

/-- Well-formedness of a property table: uthash keys are unique. -/
def tableWF (m : List JSProp) : Prop :=
  m.Pairwise (fun p q => p.name ≠ q.name)

/-! ## runtime/lib/Object.c

The builtins allocate fresh values (`JSOBJ()`, `JSBOOL()`, `JSUNDEF()`),
so this layer threads a state: the heap plus a bump allocator pointer. -/

/-- Runtime state of the builtins layer: the heap and the next fresh
address. -/
structure St where
  heap : Heap
  next : Nat

/-- Allocate a fresh value, returning the new state and its address. -/
def alloc (st : St) (v : JSValue) : St × Nat :=
  (⟨hupd st.heap st.next v, st.next + 1⟩, st.next)

/-- `obj_or_throw`: raise `E_TYPE` "Object.<name> called on a non-object"
unless the argument is Object-kind.  (The C code also rejects a NULL
pointer; the embedding has no NULL addresses.) -/
def obj_or_throw (h : Heap) (a : Nat) (name : String) :
    Except JSError Nat :=
  if (h a).type ≠ .object then
    .error ⟨.typeError, "Object." ++ name ++ " called on a non-object"⟩
  else
    .ok a

/-- `obj_prevent_extensions`: `Object.preventExtensions(obj)`.  The C body
is `obj->object.extensible = true` — it sets the flag to `true`. -/
def obj_prevent_extensions (st : St) (arg : Nat) :
    Except JSError (St × Nat) := do
  let obj ← obj_or_throw st.heap arg "preventExtensions"
  let h := hupd st.heap obj { st.heap obj with extensible := true }
  .ok (⟨h, st.next⟩, obj)

/-- `obj_is_extensible`: `Object.isExtensible(obj)` returns
`JSBOOL(obj->object.extensible)` (a fresh Boolean-kind allocation). -/
def obj_is_extensible (st : St) (arg : Nat) : Except JSError (St × Nat) := do
  let obj ← obj_or_throw st.heap arg "isExtensible"
  .ok (alloc st (JSBOOL (st.heap obj).extensible))

/-- `obj_seal`: `Object.seal(obj)` sets `obj->object.sealed = true`. -/
def obj_seal (st : St) (arg : Nat) : Except JSError (St × Nat) := do
  let obj ← obj_or_throw st.heap arg "seal"
  let h := hupd st.heap obj { st.heap obj with sealed := true }
  .ok (⟨h, st.next⟩, obj)

/-- `obj_is_sealed`: returns `JSBOOL(obj->object.sealed)`. -/
def obj_is_sealed (st : St) (arg : Nat) : Except JSError (St × Nat) := do
  let obj ← obj_or_throw st.heap arg "isSealed"
  .ok (alloc st (JSBOOL (st.heap obj).sealed))

/-- `obj_freeze`: `Object.freeze(obj)` sets `obj->object.frozen = true`
and nothing else. -/
def obj_freeze (st : St) (arg : Nat) : Except JSError (St × Nat) := do
  let obj ← obj_or_throw st.heap arg "freeze"
  let h := hupd st.heap obj { st.heap obj with frozen := true }
  .ok (⟨h, st.next⟩, obj)

/-- `obj_is_frozen`: returns `JSBOOL(obj->object.frozen)`. -/
def obj_is_frozen (st : St) (arg : Nat) : Except JSError (St × Nat) := do
  let obj ← obj_or_throw st.heap arg "isFrozen"
  .ok (alloc st (JSBOOL (st.heap obj).frozen))

/-- `flags_from_descriptor`: read `enumerable`, `configurable`, `writable`
off the descriptor with `fh_get` (own lookup; a miss yields a fresh
Undefined) and set each bit exactly when the value is Boolean-kind with
payload true. -/
def flags_from_descriptor (h : Heap) (desc : Nat) :
    Except JSError JSPropFlags := do
  let e ← fh_get h desc "enumerable"
  let c ← fh_get h desc "configurable"
  let w ← fh_get h desc "writable"
  let ev := derefGet h e
  let cv := derefGet h c
  let wv := derefGet h w
  .ok { enum := if ev.type = .boolean then ev.booleanVal else false,
        conf := if cv.type = .boolean then cv.booleanVal else false,
        write := if wv.type = .boolean then wv.booleanVal else false }

/-- `obj_define_property`: `Object.defineProperty(obj, prop, descriptor)`.
Guard the target, convert the descriptor to flags, fetch the descriptor's
`value` field (allocating a fresh Undefined on a miss, as `fh_get` does in
C), and install with `fh_set_prop`.  `prop` is a String-kind value whose
payload is the property name.  Returns the target object. -/
def obj_define_property (st : St) (argObj argProp argDesc : Nat) :
    Except JSError (St × Nat) := do
  let obj ← obj_or_throw st.heap argObj "defineProperty"
  let flags ← flags_from_descriptor st.heap argDesc
  let v ← fh_get st.heap argDesc "value"
  let stval :=
    match v with
    | some a => (st, a)
    | none => alloc st JSUNDEF
  let st1 := stval.1
  let h := fh_set_prop st1.heap obj (st1.heap argProp).stringPtr stval.2 flags
  .ok (⟨h, st1.next⟩, obj)

/-- `obj_get_own_property_descriptor`:
`Object.getOwnPropertyDescriptor(obj, prop)`.  Guard the target, own-lookup
the record, allocate a fresh descriptor object, then write `value`,
`configurable`, `writable`, `enumerable` into it with `fh_set` (each
Boolean a fresh allocation).  When the own lookup misses, the C code
dereferences the NULL record (`prop->ptr`): modelled as a `nullDeref`
failure, never a returned descriptor. -/
def obj_get_own_property_descriptor (st : St) (argObj argName : Nat) :
    Except JSError (St × Nat) := do
  let obj ← obj_or_throw st.heap argObj "getOwnPropertyDescriptor"
  let prop := fh_get_prop st.heap obj (st.heap argName).stringPtr
  let (st1, d) := alloc st JSOBJ
  match prop with
  | none => .error ⟨.nullDeref, "NULL JSProp dereference"⟩
  | some p =>
    let h1 := fh_set st1.heap d "value" p.ptr
    let (st2, cb) := alloc ⟨h1, st1.next⟩ (JSBOOL p.configurable)
    let h2 := fh_set st2.heap d "configurable" cb
    let (st3, wb) := alloc ⟨h2, st2.next⟩ (JSBOOL p.writable)
    let h3 := fh_set st3.heap d "writable" wb
    let (st4, eb) := alloc ⟨h3, st3.next⟩ (JSBOOL p.enumerable)
    let h4 := fh_set st4.heap d "enumerable" eb
    .ok (⟨h4, st4.next⟩, d)

/-! ## Concrete fixtures used by witnesses and counterexamples -/

/-- A heap where every address holds an Undefined value. -/
def emptyHeap : Heap := fun _ => JSUNDEF

/-- A heap with a single fresh object at address 0. -/
def objHeap : Heap := hupd emptyHeap 0 JSOBJ

/-- `objHeap` extended with a String-kind value "q" at address 1. -/
def strHeap : Heap :=
  hupd objHeap 1 { type := .string, stringPtr := "q" }

/-- Prototype chain A(0) -> B(1) -> C(2), a Function-kind value at 10 bound
under "f" only on C; its `boundInstance` starts at C to make the stamp
visible. -/
def protoHeap : Heap :=
  hupd (hupd (hupd (hupd emptyHeap
    0 { type := .object, proto := some 1 })
    1 { type := .object, proto := some 2 })
    2 { type := .object, map := [⟨"f", 10, true, true, true, false⟩] })
    10 { type := .function, boundInstance := some 2 }

/-- Scope chain S0(0) -> S1(1) -> S2(2), a binding for "x" (value at 10)
only on S2. -/
def scopeHeap : Heap :=
  hupd (hupd (hupd emptyHeap
    0 { type := .object, parent := some 1 })
    1 { type := .object, parent := some 2 })
    2 { type := .object, map := [⟨"x", 10, true, true, true, false⟩] }

/-- An object at 0 owning "x" with Configurable false. -/
def delHeap : Heap :=
  hupd emptyHeap 0
    { type := .object, map := [⟨"x", 10, true, true, false, false⟩] }

/-- Spec-side reading of the descriptor conversion (claim C7): a flag is
set exactly when the descriptor's own table holds, under the key, a value
of Boolean kind with payload exactly true. -/
def spec_desc_flag (h : Heap) (desc : Nat) (k : String) : Bool :=
  match fh_get_prop h desc k with
  | some p => if (h p.ptr).type = .boolean then (h p.ptr).booleanVal else false
  | none => false

/-- Round-trip fixture: object at 0, name string "p" at 1, descriptor at 2
with writable |-> true(3), enumerable |-> false(4), configurable |->
true(5), value |-> the Number-kind value at 6. -/
def rtHeap : Heap :=
  hupd (hupd (hupd (hupd (hupd (hupd (hupd emptyHeap
    0 JSOBJ)
    1 { type := .string, stringPtr := "p" })
    2 { type := .object, map := [⟨"writable", 3, true, true, true, false⟩,
          ⟨"enumerable", 4, true, true, true, false⟩,
          ⟨"configurable", 5, true, true, true, false⟩,
          ⟨"value", 6, true, true, true, false⟩] })
    3 (JSBOOL true)) 4 (JSBOOL false)) 5 (JSBOOL true))
    6 { type := .number }

/-- The round-trip fixture state; 20 is past every used address. -/
def rtSt : St := ⟨rtHeap, 20⟩

/-- `Object.defineProperty(obj, "p", desc)` followed by
`Object.getOwnPropertyDescriptor(obj, "p")` on the fixture. -/
def roundTrip : Option (St × Nat) :=
  match obj_define_property rtSt 0 1 2 with
  | .ok x =>
    match obj_get_own_property_descriptor x.1 0 1 with
    | .ok y => some y
    | .error _ => none
  | .error _ => none

/-- The state after the round trip. -/
def rtDescSt : St := (roundTrip.getD (⟨emptyHeap, 0⟩, 0)).1

/-- The returned descriptor object's address. -/
def rtDescAddr : Nat := (roundTrip.getD (⟨emptyHeap, 0⟩, 0)).2

/-- Read a field of the returned descriptor and dereference it. -/
def rtRead (k : String) : JSValue :=
  match fh_get rtDescSt.heap rtDescAddr k with
  | .ok r => derefGet rtDescSt.heap r
  | .error _ => JSUNDEF

/-! ## Flag variation (claim C10) -/

/-- Flip the Writable flag of every record named `n` to `w` (a no-op on
records with other names; in a well-formed table at most one is named
`n`). -/
def setWritable (m : List JSProp) (n : String) (w : Bool) : List JSProp :=
  m.map (fun p => if p.name == n then { p with writable := w } else p)

/-- A run of the heap that differs from `h` only in the object-state flags
of `o` and the Writable flag of `o`'s record named `n`. -/
def flagVariant (h : Heap) (o : Nat) (n : String) (x y z w : Bool) : Heap :=
  hupd h o
    { h o with
      extensible := x
      sealed := y
      frozen := z
      map := setWritable (h o).map n w }

/-! ## Spec-side characterization of the fh_set_rec target (claim C2) -/

/-- The scope chain as the spec describes it: the starting scope followed
by its ancestors through `object.parent` (bounded by fuel). -/
def scopeChain (h : Heap) (s : Nat) (fuel : Nat) : List Nat :=
  match fuel with
  | 0 => [s]
  | fuel + 1 =>
    s :: (match (h s).parent with
          | some par => scopeChain h par fuel
          | none => [])

/-- The write target in the spec's words: the first scope, walking outward
from the starting scope, whose own table already contains the name; the
original (innermost) scope when no scope in the chain owns it. -/
def spec_set_rec_target (h : Heap) (s : Nat) (name : String) (fuel : Nat) :
    Nat :=
  ((scopeChain h s fuel).find? (fun t => (fh_get_prop h t name).isSome)).getD s

/-! ## General lemmas about the heap embedding -/

theorem hupd_self (h : Heap) (a : Nat) (v : JSValue) : hupd h a v a = v := by
  simp [hupd]

theorem hupd_other (h : Heap) (a b : Nat) (v : JSValue) (hb : b ≠ a) :
    hupd h a v b = h b := by
  simp [hupd, hb]

/-- Updating every record named `n` to `r` (with `r` itself named `n`)
makes the own lookup of `n` yield `r` exactly when it previously hit. -/
theorem find?_map_update (m : List JSProp) (n : String) (r : JSProp)
    (hr : (r.name == n) = true) :
    (m.map (fun q => if q.name == n then r else q)).find?
        (fun p => p.name == n) =
      if (m.find? (fun p => p.name == n)).isSome then some r else none := by
  induction m with
  | nil => simp
  | cons q m ih =>
    cases hq : (q.name == n) with
    | true =>
      simp only [List.map_cons, List.find?_cons, hq, hr, if_true]
      rfl
    | false =>
      simp only [List.map_cons, List.find?_cons, hq, if_false,
        Bool.false_eq_true, reduceIte]
      exact ih

/-- Appending a record named `n` to a table without one makes the own
lookup of `n` yield it. -/
theorem find?_append_single (m : List JSProp) (n : String) (r : JSProp)
    (hm : m.find? (fun p => p.name == n) = none)
    (hr : (r.name == n) = true) :
    (m ++ [r]).find? (fun p => p.name == n) = some r := by
  induction m with
  | nil => simp only [List.nil_append, List.find?_cons, hr]
  | cons q m ih =>
    cases hq : (q.name == n) with
    | true => rw [List.find?_cons, hq] at hm; cases hm
    | false =>
      rw [List.find?_cons, hq] at hm
      rw [List.cons_append, List.find?_cons, hq]
      exact ih hm

/-- After `fh_set_prop`, the own lookup of the name yields exactly the
record the write built. -/
theorem fh_set_prop_get_prop (h : Heap) (o : Nat) (n : String) (v : Nat)
    (fl : JSPropFlags) :
    fh_get_prop (fh_set_prop h o n v fl) o n = some (mkProp o n v fl) := by
  have hmk : ((mkProp o n v fl).name == n) = true := by simp [mkProp]
  cases hf : fh_get_prop h o n with
  | some p =>
    rw [fh_set_prop, hf]
    dsimp only
    rw [fh_get_prop, hupd_self]
    rw [find?_map_update _ n _ hmk]
    have : ((h o).map.find? (fun p => p.name == n)).isSome = true := by
      rw [fh_get_prop] at hf; rw [hf]; rfl
    rw [this]
    simp
  | none =>
    rw [fh_set_prop, hf]
    dsimp only
    rw [fh_get_prop, hupd_self]
    rw [fh_get_prop] at hf
    exact find?_append_single _ n _ hf hmk

/-- `fh_set_prop` never changes the receiver's type tag. -/
theorem fh_set_prop_type (h : Heap) (o : Nat) (n : String) (v : Nat)
    (fl : JSPropFlags) :
    ((fh_set_prop h o n v fl) o).type = (h o).type := by
  rw [fh_set_prop]
  cases hf : fh_get_prop h o n <;> simp [hupd_self]

/-- When the name is already owned, `fh_set_prop` keeps the own-property
count unchanged. -/
theorem fh_set_prop_update_length (h : Heap) (o : Nat) (n : String) (v : Nat)
    (fl : JSPropFlags) (hex : (fh_get_prop h o n).isSome = true) :
    ((fh_set_prop h o n v fl) o).map.length = (h o).map.length := by
  rw [fh_set_prop]
  cases hf : fh_get_prop h o n with
  | some p => simp [hupd_self]
  | none => rw [hf] at hex; cases hex

/-- Erasing the record named `n` from a well-formed table leaves no record
with that name. -/
theorem find?_eraseP_name_none (m : List JSProp) (n : String)
    (hwf : tableWF m) :
    (m.eraseP (fun p => p.name == n)).find? (fun p => p.name == n) =
      none := by
  induction m with
  | nil => simp
  | cons q m ih =>
    have hq' : ∀ r ∈ m, q.name ≠ r.name := (List.pairwise_cons.mp hwf).1
    have hwf' : tableWF m := (List.pairwise_cons.mp hwf).2
    cases hq : (q.name == n) with
    | true =>
      rw [List.eraseP_cons, hq]
      simp only [cond_true]
      rw [List.find?_eq_none]
      intro r hr
      have hne := hq' r hr
      have : q.name = n := by simpa using hq
      simp [← this]
      exact fun hrq => hne hrq.symm
    | false =>
      rw [List.eraseP_cons, hq]
      simp only [cond_false]
      rw [List.find?_cons, hq]
      exact ih hwf'

/-- The while loop of `fh_set_rec` computes exactly the first owner along
the chain of strict ancestors, as a `find?` over the spec's scope chain. -/
theorem scopeOwner_chain_find (h : Heap) (name : String) :
    ∀ (fuel s : Nat),
      (scopeChain h s fuel).find? (fun t => (fh_get_prop h t name).isSome) =
        if (fh_get_prop h s name).isSome then some s
        else scopeOwner h name (h s).parent fuel := by
  intro fuel
  induction fuel with
  | zero =>
    intro s
    cases hp : (h s).parent <;>
      simp [scopeChain, scopeOwner, List.find?, hp] <;>
      split <;> simp_all
  | succ n ih =>
    intro s
    cases hp : (h s).parent with
    | none =>
      simp [scopeChain, scopeOwner, List.find?, hp]
      split <;> simp_all
    | some par =>
      simp only [scopeChain, hp, List.find?]
      cases hP : (fh_get_prop h s name).isSome with
      | true => simp [hP]
      | false => simp [hP, scopeOwner, hp, ih par]

/-- Own lookup commutes with the Writable variation. -/
theorem find?_setWritable (m : List JSProp) (n : String) (w : Bool) :
    (setWritable m n w).find? (fun p => p.name == n) =
      (m.find? (fun p => p.name == n)).map
        (fun p => { p with writable := w }) := by
  induction m with
  | nil => simp [setWritable]
  | cons q m ih =>
    cases hq : (q.name == n) with
    | true =>
      have hq2 : (({ q with writable := w } : JSProp).name == n) = true := hq
      simp only [setWritable, List.map_cons, List.find?_cons, hq, hq2,
        reduceIte]
      rfl
    | false =>
      simp only [setWritable, List.map_cons, List.find?_cons, hq,
        Bool.false_eq_true, reduceIte]
      exact ih

/-- Varying the Writable flag of an absent name changes nothing. -/
theorem setWritable_id_of_absent (m : List JSProp) (n : String) (w : Bool)
    (hm : m.find? (fun p => p.name == n) = none) :
    setWritable m n w = m := by
  induction m with
  | nil => rfl
  | cons q m ih =>
    cases hq : (q.name == n) with
    | true => rw [List.find?_cons, hq] at hm; cases hm
    | false =>
      rw [List.find?_cons, hq] at hm
      simp only [setWritable, List.map_cons, hq, Bool.false_eq_true,
        reduceIte]
      exact congrArg (List.cons q) (ih hm)

/-- The in-place update of `fh_set_prop` gives the same table whether or
not the Writable flags of the records named `n` were varied first. -/
theorem map_update_setWritable (m : List JSProp) (n : String) (w : Bool)
    (r : JSProp) :
    (setWritable m n w).map (fun q => if q.name == n then r else q) =
      m.map (fun q => if q.name == n then r else q) := by
  induction m with
  | nil => rfl
  | cons q m ih =>
    cases hq : (q.name == n) with
    | true =>
      have hq2 : (({ q with writable := w } : JSProp).name == n) = true := hq
      simp only [setWritable, List.map_cons, hq, hq2, reduceIte]
      exact congrArg (List.cons r) ih
    | false =>
      simp only [setWritable, List.map_cons, hq, Bool.false_eq_true,
        reduceIte]
      exact congrArg (List.cons q) ih

/-- The erase of `fh_del_prop` gives the same table whether or not the
Writable flags of the (in a well-formed table, unique) record named `n`
were varied first. -/
theorem eraseP_setWritable (m : List JSProp) (n : String) (w : Bool)
    (hwf : tableWF m) :
    (setWritable m n w).eraseP (fun p => p.name == n) =
      m.eraseP (fun p => p.name == n) := by
  induction m with
  | nil => rfl
  | cons q m ih =>
    have hq' : ∀ r ∈ m, q.name ≠ r.name := (List.pairwise_cons.mp hwf).1
    have hwf' : tableWF m := (List.pairwise_cons.mp hwf).2
    cases hq : (q.name == n) with
    | true =>
      simp only [setWritable, List.map_cons, hq, reduceIte]
      rw [List.eraseP_cons, List.eraseP_cons, hq]
      simp only [cond_true]
      apply setWritable_id_of_absent
      rw [List.find?_eq_none]
      intro r hr
      have hqn : q.name = n := by simpa using hq
      simp [← hqn]
      exact fun hrq => hq' r hr hrq.symm
    | false =>
      simp only [setWritable, List.map_cons, hq, Bool.false_eq_true,
        reduceIte]
      rw [List.eraseP_cons, List.eraseP_cons, hq]
      simp only [cond_false]
      exact congrArg (List.cons q) (ih hwf')

/-! ## Claim theorems -/

/-- C1: reading any property off an Undefined-kind receiver raises the
TypeError "Cannot read property '<n>' of undefined"; reading a name absent
from the own table of an Object-kind receiver returns a fresh Undefined
(`none`) and never an error. -/
theorem C1_get_contract (h : Heap) (obj : Nat) (name : String) :
    ((h obj).type = .undef →
      fh_get h obj name = .error ⟨.typeError, cannotReadMsg name⟩) ∧
    ((h obj).type = .object → fh_get_prop h obj name = none →
      fh_get h obj name = .ok none) := by
  constructor
  · intro hu
    simp [fh_get, hu]
  · intro ho hm
    simp [fh_get, ho, hm]

/-- Witness for C1 at the empty heap and a bare object. -/
theorem C1_get_contract_witness :
    fh_get emptyHeap 0 "x" = .error ⟨.typeError, cannotReadMsg "x"⟩ ∧
    fh_get objHeap 0 "x" = .ok none :=
  ⟨(C1_get_contract emptyHeap 0 "x").1 rfl,
   (C1_get_contract objHeap 0 "x").2 rfl rfl⟩

/-- C2: `fh_set_rec` writes to the first scope, walking outward from the
starting scope, whose own table already contains the name, and to the
original (innermost) scope when no scope in the chain owns it — stated as
equality with the spec-side target and checked on the chain
S0(0) -> S1(1) -> S2(2) with "x" bound only on S2: the write mutates S2's
record in place (its single record now holds the new value), an own-only
lookup on S0 still misses, and S0 and S1 are untouched. -/
theorem C2_set_rec_targets_owning_scope :
    (∀ (h : Heap) (s : Nat) (name : String) (val fuel : Nat),
      fh_set_rec h s name val fuel =
        fh_set h (spec_set_rec_target h s name fuel) name val) ∧
    ((fh_set_rec scopeHeap 0 "x" 11 5) 2).map =
      [⟨"x", 11, true, true, true, false⟩] ∧
    fh_get_prop (fh_set_rec scopeHeap 0 "x" 11 5) 0 "x" = none ∧
    (fh_set_rec scopeHeap 0 "x" 11 5) 0 = scopeHeap 0 ∧
    (fh_set_rec scopeHeap 0 "x" 11 5) 1 = scopeHeap 1 := by
  refine ⟨fun h s name val fuel => ?_, by decide, by decide, by decide,
    by decide⟩
  show fh_set_rec h s name val fuel =
    fh_set h (spec_set_rec_target h s name fuel) name val
  unfold fh_set_rec spec_set_rec_target
  rw [scopeOwner_chain_find]
  by_cases hP : (fh_get_prop h s name).isSome
  · simp [hP]
  · simp only [hP, if_false, Bool.false_eq_true]
    cases hso : scopeOwner h name (h s).parent fuel <;> simp [hso]

/-- C3: whenever the prototype-chain lookup of `fh_get_proto` resolves to a
record whose value is Function-kind — at any depth — the returned pointer
is that record's value and the heap after the call carries the original
receiver in that value's `boundInstance` field. -/
theorem C3_get_proto_stamps_receiver (h : Heap) (obj : Nat) (name : String)
    (fuel : Nat) (p : JSProp)
    (hp : fh_get_prop_proto h obj name fuel = some p)
    (hf : (h p.ptr).type = .function) :
    (fh_get_proto h obj name fuel).2 = some p.ptr ∧
    ((fh_get_proto h obj name fuel).1 p.ptr).boundInstance = some obj := by
  simp [fh_get_proto, hp, hf, hupd_self]

/-- Witness for C3 on the chain A(0) -> B(1) -> C(2) with "f" only on C:
the function at 10 comes back stamped with A (address 0), not C. -/
theorem C3_get_proto_stamps_receiver_witness :
    (fh_get_proto protoHeap 0 "f" 5).2 = some 10 ∧
    ((fh_get_proto protoHeap 0 "f" 5).1 10).boundInstance = some 0 :=
  C3_get_proto_stamps_receiver protoHeap 0 "f" 5
    ⟨"f", 10, true, true, true, false⟩ rfl rfl

/-- C4: `Object.preventExtensions` on an Object-kind argument sets the
`extensible` flag to `true` (the opposite of its name) and returns the
object; a following `Object.isExtensible` therefore yields Boolean true. -/
theorem C4_prevent_extensions_sets_true (st : St) (a : Nat)
    (h : (st.heap a).type = .object) :
    (obj_prevent_extensions st a).toOption.map
        (fun x => ((x.1.heap a).extensible, x.2)) = some (true, a) ∧
    ((obj_prevent_extensions st a).toOption.bind
        (fun x => (obj_is_extensible x.1 a).toOption)).map
        (fun y => y.1.heap y.2) = some (JSBOOL true) := by
  constructor <;>
    simp [obj_prevent_extensions, obj_is_extensible, obj_or_throw, h,
      Except.toOption, alloc, hupd_self, Bind.bind, Except.bind]

/-- Witness for C4 on a bare object at address 0. -/
theorem C4_prevent_extensions_sets_true_witness :
    (obj_prevent_extensions ⟨objHeap, 1⟩ 0).toOption.map
        (fun x => ((x.1.heap 0).extensible, x.2)) = some (true, 0) ∧
    ((obj_prevent_extensions ⟨objHeap, 1⟩ 0).toOption.bind
        (fun x => (obj_is_extensible x.1 0).toOption)).map
        (fun y => y.1.heap y.2) = some (JSBOOL true) :=
  C4_prevent_extensions_sets_true ⟨objHeap, 1⟩ 0 rfl

/-- C5: `Object.getOwnPropertyDescriptor` on an Object-kind receiver with a
name that has no own record reaches the NULL record dereference
(`prop->ptr`): modelled as the `nullDeref` failure — no descriptor and no
Undefined result is ever produced on that path. -/
theorem C5_gopd_missing_crashes (st : St) (argObj argName : Nat)
    (h : (st.heap argObj).type = .object)
    (hm : fh_get_prop st.heap argObj ((st.heap argName).stringPtr) = none) :
    obj_get_own_property_descriptor st argObj argName =
      .error ⟨.nullDeref, "NULL JSProp dereference"⟩ := by
  simp [obj_get_own_property_descriptor, obj_or_throw, h, hm, alloc,
    Bind.bind, Except.bind]

/-- Witness for C5: object at 0 with an empty table, name "q" at 1. -/
theorem C5_gopd_missing_crashes_witness :
    obj_get_own_property_descriptor ⟨strHeap, 2⟩ 0 1 =
      .error ⟨.nullDeref, "NULL JSProp dereference"⟩ :=
  C5_gopd_missing_crashes ⟨strHeap, 2⟩ 0 1 rfl rfl

/-- C9: `Object.freeze` on an Object-kind argument sets exactly the
`frozen` flag of that object (all other fields, and all other addresses,
unchanged); afterwards `isFrozen` reports Boolean true while `isSealed` and
`isExtensible` report the pre-call values of their flags. -/
theorem C9_freeze_only_frozen (st : St) (a : Nat)
    (h : (st.heap a).type = .object) :
    (obj_freeze st a).toOption.map (fun x => x.1.heap a) =
      some { st.heap a with frozen := true } ∧
    (∀ b, b ≠ a → (obj_freeze st a).toOption.map (fun x => x.1.heap b) =
      some (st.heap b)) ∧
    ((obj_freeze st a).toOption.bind
        (fun x => (obj_is_frozen x.1 a).toOption)).map
        (fun y => y.1.heap y.2) = some (JSBOOL true) ∧
    ((obj_freeze st a).toOption.bind
        (fun x => (obj_is_sealed x.1 a).toOption)).map
        (fun y => y.1.heap y.2) = some (JSBOOL (st.heap a).sealed) ∧
    ((obj_freeze st a).toOption.bind
        (fun x => (obj_is_extensible x.1 a).toOption)).map
        (fun y => y.1.heap y.2) = some (JSBOOL (st.heap a).extensible) := by
  refine ⟨?_, fun b hb => ?_, ?_, ?_, ?_⟩
  case' refine_2 =>
    simp [obj_freeze, obj_or_throw, h, Except.toOption, hupd_other _ _ _ _ hb,
      Bind.bind, Except.bind]
  all_goals
    simp [obj_freeze, obj_is_frozen, obj_is_sealed, obj_is_extensible,
      obj_or_throw, h, Except.toOption, alloc, hupd_self, Bind.bind,
      Except.bind]

/-- C6 counterexample: an own record with Configurable false is present,
yet `fh_del_prop` removes it — the delete is not a no-op there, refuting
"deleting a configurable-false ... record is a silent no-op". -/
theorem C6_counterexample_configurable_false_removed :
    fh_get_prop delHeap 0 "x" = some ⟨"x", 10, true, true, false, false⟩ ∧
    ((fh_del_prop delHeap 0 "x") 0).map = [] ∧
    ((fh_del_prop delHeap 0 "x") 0).map ≠ (delHeap 0).map := by
  refine ⟨by decide, by decide, by decide⟩

/-- C6 (amended): `fh_del_prop` touches only the own table of its receiver
(every other address is unchanged — it never walks the prototype or scope
chain); deleting an absent name is a silent no-op; deleting a present
record removes it regardless of any flag (in a well-formed table the name
no longer resolves); there is no error path. -/
theorem C6_del_contract :
    (∀ (h : Heap) (o : Nat) (n : String) (a : Nat), a ≠ o →
      fh_del_prop h o n a = h a) ∧
    (∀ (h : Heap) (o : Nat) (n : String),
      fh_get_prop h o n = none → fh_del_prop h o n = h) ∧
    (∀ (h : Heap) (o : Nat) (n : String) (p : JSProp),
      tableWF ((h o).map) → fh_get_prop h o n = some p →
      fh_get_prop (fh_del_prop h o n) o n = none) := by
  refine ⟨?_, ?_, ?_⟩
  · intro h o n a ha
    rw [fh_del_prop]
    cases hf : fh_get_prop h o n <;> simp [hupd_other _ _ _ _ ha]
  · intro h o n hm
    rw [fh_del_prop, hm]
  · intro h o n p hwf hm
    rw [fh_del_prop, hm]
    dsimp only
    rw [fh_get_prop, hupd_self]
    exact find?_eraseP_name_none _ n hwf

/-- Witness for C6: frame at address 3, no-op on an empty table, removal
of the configurable-false record of `delHeap`. -/
theorem C6_del_contract_witness :
    fh_del_prop delHeap 0 "x" 3 = delHeap 3 ∧
    fh_del_prop objHeap 0 "x" = objHeap ∧
    fh_get_prop (fh_del_prop delHeap 0 "x") 0 "x" = none := by
  refine ⟨C6_del_contract.1 delHeap 0 "x" 3 (by decide),
    C6_del_contract.2.1 objHeap 0 "x" rfl,
    C6_del_contract.2.2 delHeap 0 "x" ⟨"x", 10, true, true, false, false⟩
      ?_ rfl⟩
  simp [delHeap, tableWF, hupd_self]

/-- C7: the descriptor-to-flags conversion sets each of the three flags
exactly when the descriptor holds a Boolean-kind value of exactly true
under the corresponding key (absence, non-boolean kind, and false all
clear it); and on the fixture, a property installed via
`Object.defineProperty` with {Writable:true, Enumerable:false,
Configurable:true} is reported back by `Object.getOwnPropertyDescriptor`
with exactly those three booleans and the stored value (address 6). -/
theorem C7_flags_iff_boolean_true :
    (∀ (h : Heap) (desc : Nat) (fl : JSPropFlags),
      flags_from_descriptor h desc = .ok fl →
      fl.write = spec_desc_flag h desc "writable" ∧
      fl.enum = spec_desc_flag h desc "enumerable" ∧
      fl.conf = spec_desc_flag h desc "configurable") ∧
    roundTrip.isSome = true ∧
    fh_get_prop rtDescSt.heap 0 "p" =
      some ⟨"p", 6, true, false, true, false⟩ ∧
    fh_get rtDescSt.heap rtDescAddr "value" = .ok (some 6) ∧
    rtRead "writable" = JSBOOL true ∧
    rtRead "enumerable" = JSBOOL false ∧
    rtRead "configurable" = JSBOOL true := by
  refine ⟨?_, rfl, by decide, rfl, by decide, by decide, by decide⟩
  intro h desc fl hfl
  by_cases hdu : (h desc).type = .undef
  · simp [flags_from_descriptor, fh_get, hdu, Bind.bind, Except.bind] at hfl
  · simp only [flags_from_descriptor, fh_get, hdu, if_neg, Bind.bind,
      Except.bind, reduceIte] at hfl
    cases he : fh_get_prop h desc "enumerable" <;>
      cases hc : fh_get_prop h desc "configurable" <;>
        cases hw : fh_get_prop h desc "writable" <;>
          simp only [he, hc, hw, Except.ok.injEq] at hfl <;>
            subst hfl <;>
              simp [spec_desc_flag, he, hc, hw, derefGet, JSUNDEF]

/-- Witness for C7: the fixture descriptor converts to
{write:true, conf:true, enum:false}, matching the spec-side flags. -/
theorem C7_flags_iff_boolean_true_witness :
    flags_from_descriptor rtHeap 2 = .ok ⟨true, true, false⟩ ∧
    true = spec_desc_flag rtHeap 2 "writable" ∧
    false = spec_desc_flag rtHeap 2 "enumerable" ∧
    true = spec_desc_flag rtHeap 2 "configurable" := by
  have hth := C7_flags_iff_boolean_true.1 rtHeap 2 ⟨true, true, false⟩ rfl
  exact ⟨rfl, hth.1, hth.2.1, hth.2.2⟩

/-- C8: installing a property then reading it back returns the stored
value; a second install on the same name with a different value updates the
record in place: the read returns the new value and the own-property count
is unchanged. -/
theorem C8_set_then_get (h : Heap) (o : Nat) (n : String) (v v' : Nat)
    (fl fl' : JSPropFlags) (ho : (h o).type = .object) :
    fh_get (fh_set_prop h o n v fl) o n = .ok (some v) ∧
    fh_get (fh_set_prop (fh_set_prop h o n v fl) o n v' fl') o n =
      .ok (some v') ∧
    ((fh_set_prop (fh_set_prop h o n v fl) o n v' fl') o).map.length =
      ((fh_set_prop h o n v fl) o).map.length := by
  have k1 := fh_set_prop_get_prop h o n v fl
  have k2 := fh_set_prop_get_prop (fh_set_prop h o n v fl) o n v' fl'
  have t1 := fh_set_prop_type h o n v fl
  have t2 := fh_set_prop_type (fh_set_prop h o n v fl) o n v' fl'
  refine ⟨?_, ?_, ?_⟩
  · simp [fh_get, t1, ho, k1, mkProp]
  · simp [fh_get, t2, t1, ho, k2, mkProp]
  · exact fh_set_prop_update_length _ o n v' fl' (by simp [k1])

/-- Witness for C8: store 5 under "x", read it back; overwrite with 6,
read it back; the table still has a single record. -/
theorem C8_set_then_get_witness :
    fh_get (fh_set_prop objHeap 0 "x" 5 P_DEFAULT) 0 "x" = .ok (some 5) ∧
    fh_get (fh_set_prop (fh_set_prop objHeap 0 "x" 5 P_DEFAULT) 0 "x" 6
      ⟨false, false, false⟩) 0 "x" = .ok (some 6) ∧
    ((fh_set_prop (fh_set_prop objHeap 0 "x" 5 P_DEFAULT) 0 "x" 6
      ⟨false, false, false⟩) 0).map.length =
      ((fh_set_prop objHeap 0 "x" 5 P_DEFAULT) 0).map.length :=
  C8_set_then_get objHeap 0 "x" 5 6 P_DEFAULT ⟨false, false, false⟩ rfl

/-- Witness for C9 on a bare object at 0 (checking the frame at 3). -/
theorem C9_freeze_only_frozen_witness :
    (obj_freeze ⟨objHeap, 1⟩ 0).toOption.map (fun x => x.1.heap 0) =
      some { objHeap 0 with frozen := true } ∧
    (obj_freeze ⟨objHeap, 1⟩ 0).toOption.map (fun x => x.1.heap 3) =
      some (objHeap 3) ∧
    ((obj_freeze ⟨objHeap, 1⟩ 0).toOption.bind
        (fun x => (obj_is_frozen x.1 0).toOption)).map
        (fun y => y.1.heap y.2) = some (JSBOOL true) ∧
    ((obj_freeze ⟨objHeap, 1⟩ 0).toOption.bind
        (fun x => (obj_is_sealed x.1 0).toOption)).map
        (fun y => y.1.heap y.2) = some (JSBOOL (objHeap 0).sealed) ∧
    ((obj_freeze ⟨objHeap, 1⟩ 0).toOption.bind
        (fun x => (obj_is_extensible x.1 0).toOption)).map
        (fun y => y.1.heap y.2) = some (JSBOOL (objHeap 0).extensible) := by
  obtain ⟨h1, h2, h3, h4, h5⟩ := C9_freeze_only_frozen ⟨objHeap, 1⟩ 0 rfl
  exact ⟨h1, h2 3 (by decide), h3, h4, h5⟩

/-- C10: the object-state flags extensible/sealed/frozen and the Writable
flag of the record being written or deleted never influence mutation: two
runs of `fh_set_prop` (or `fh_del_prop`) that differ only in those flags
produce the same resulting property table — in particular any run after
`Object.freeze` or `Object.seal` (which only flip such flags) still
overwrites the value, and delete still removes the record. -/
theorem C10_flags_never_gate_mutation (h : Heap) (o : Nat) (n : String)
    (v : Nat) (fl : JSPropFlags) (x y z w : Bool)
    (hwf : tableWF ((h o).map)) :
    ((fh_set_prop (flagVariant h o n x y z w) o n v fl) o).map =
      ((fh_set_prop h o n v fl) o).map ∧
    ((fh_del_prop (flagVariant h o n x y z w) o n) o).map =
      ((fh_del_prop h o n) o).map := by
  have hvar : (flagVariant h o n x y z w) o =
      { h o with
        extensible := x
        sealed := y
        frozen := z
        map := setWritable (h o).map n w } := hupd_self _ _ _
  have hfind : fh_get_prop (flagVariant h o n x y z w) o n =
      (fh_get_prop h o n).map (fun p => { p with writable := w }) := by
    rw [fh_get_prop, fh_get_prop, hvar]
    exact find?_setWritable _ n w
  constructor
  · rw [fh_set_prop, fh_set_prop, hfind]
    cases hf : fh_get_prop h o n with
    | some p =>
      simp only [Option.map_some']
      rw [hupd_self, hupd_self, hvar]
      dsimp only
      exact map_update_setWritable _ n w _
    | none =>
      simp only [Option.map_none']
      rw [hupd_self, hupd_self, hvar]
      dsimp only
      rw [setWritable_id_of_absent _ n w]
      rw [fh_get_prop] at hf
      exact hf
  · rw [fh_del_prop, fh_del_prop, hfind]
    cases hf : fh_get_prop h o n with
    | some p =>
      simp only [Option.map_some']
      rw [hupd_self, hupd_self, hvar]
      dsimp only
      exact eraseP_setWritable _ n w hwf
    | none =>
      simp only [Option.map_none']
      rw [hvar]
      dsimp only
      apply setWritable_id_of_absent
      rw [fh_get_prop] at hf
      exact hf

/-- Witness for C10: a frozen, sealed, Writable-false variant of `delHeap`
is written and deleted exactly like the original. -/
theorem C10_flags_never_gate_mutation_witness :
    ((fh_set_prop (flagVariant delHeap 0 "x" false true true false)
        0 "x" 11 P_DEFAULT) 0).map =
      ((fh_set_prop delHeap 0 "x" 11 P_DEFAULT) 0).map ∧
    ((fh_del_prop (flagVariant delHeap 0 "x" false true true false)
        0 "x") 0).map =
      ((fh_del_prop delHeap 0 "x") 0).map :=
  C10_flags_never_gate_mutation delHeap 0 "x" 11 P_DEFAULT
    false true true false (by simp [delHeap, tableWF, hupd_self])

end Flathead
